import Mathlib

set_option maxRecDepth 4000

/-- Cells of a pandas DataFrame as used by this pipeline: a numeric value,
a string (the appended sector column), or a missing value (NaN). -/
inductive Cell where
  | num (q : ℚ)
  | str (s : String)
  | nan
deriving DecidableEq

/-- Exceptions raised by the underlying libraries: positional indexing out of
bounds (IndexError) and dictionary key lookup failure (KeyError). -/
inductive PyError where
  | indexError
  | keyError
deriving DecidableEq

/-- A date-indexed price table: `dates` is the row index, counted in days
since 1970-01-01, and `cols` holds one price series per asset, with `none`
standing for NaN. -/
structure PriceTable where
  dates : List ℤ
  cols : List (String × List (Option ℚ))
deriving DecidableEq

/-- An asset-indexed table as produced by `returns_df` and later mutated by
`hot_ball_of_money`: `assets` is the row index and `cols` the named columns. -/
structure Table where
  assets : List String
  cols : List (String × List Cell)
deriving DecidableEq

/-- Forward fill (pandas `ffill`): replace a missing entry with the last
preceding non-missing one; leading missing entries stay missing. -/
def ffillGo (acc : Option ℚ) : List (Option ℚ) → List (Option ℚ)
  | [] => []
  | none :: rest => acc :: ffillGo acc rest
  | some v :: rest => some v :: ffillGo (some v) rest

def ffill (l : List (Option ℚ)) : List (Option ℚ) := ffillGo none l

/-- One step of pandas `pct_change`: current over previous minus one, missing
when either side is missing. -/
def pcOne (prev cur : Option ℚ) : Option ℚ :=
  match prev, cur with
  | some p, some c => some (c / p - 1)
  | _, _ => none

/-- pandas `pct_change`: the first entry is missing, each later entry is the
relative change from its predecessor. -/
def pctChange (l : List (Option ℚ)) : List (Option ℚ) :=
  match l with
  | [] => []
  | _ :: rest => none :: List.zipWith pcOne l rest

/-- pandas cumulative product with its default `skipna=True`: missing entries
stay missing and the running product skips over them. -/
def cumprodGo (acc : ℚ) : List (Option ℚ) → List (Option ℚ)
  | [] => []
  | none :: rest => none :: cumprodGo acc rest
  | some v :: rest => some (acc * v) :: cumprodGo (acc * v) rest

/-- Total compounded percentage return of one price series, exactly as
`compute_cumulative_returns` computes it on one column:
`((1 + prices.ffill().pct_change()).cumprod().iloc[-1] - 1) * 100`. -/
def seriesReturn (prices : List (Option ℚ)) : Option ℚ :=
  ((cumprodGo 1 ((pctChange (ffill prices)).map (Option.map (fun r => 1 + r)))).getLastD none).map
    (fun x => (x - 1) * 100)

def cellOfOpt : Option ℚ → Cell
  | none => Cell.nan
  | some q => Cell.num q

/-- Embedding of `compute_cumulative_returns`: `.iloc[-1]` raises IndexError
on a slice with zero rows; otherwise the result is a single column named
`colName` holding one compounded percentage return per asset. -/
def compute_cumulative_returns (t : PriceTable) (colName : String) : Except PyError Table :=
  if t.dates = [] then Except.error PyError.indexError
  else Except.ok ⟨t.cols.map Prod.fst,
    [(colName, t.cols.map (fun c => cellOfOpt (seriesReturn c.2)))]⟩

/-- Gregorian date (year, month, day) of a day count since 1970-01-01,
valid for every day of the years 1 through 9999. -/
def civilFromDays (z : ℤ) : ℕ × ℕ × ℕ :=
  let n : ℕ := (z + 719468).toNat
  let era := n / 146097
  let doe := n % 146097
  let yoe := (doe - doe / 1460 + doe / 36524 - doe / 146096) / 365
  let doy := doe - (365 * yoe + yoe / 4 - yoe / 100)
  let mp := (5 * doy + 2) / 153
  let d := doy - (153 * mp + 2) / 5 + 1
  let m := if mp < 10 then mp + 3 else mp - 9
  (era * 400 + yoe + (if m ≤ 2 then 1 else 0), m, d)

def padZ (w n : ℕ) : String :=
  let s := toString n
  String.mk (List.replicate (w - s.length) '0') ++ s

/-- strftime with the format `%Y-%m-%d`. -/
def strfdate (z : ℤ) : String :=
  let c := civilFromDays z
  padZ 4 c.1 ++ "-" ++ padZ 2 c.2.1 ++ "-" ++ padZ 2 c.2.2

/-- Label-based date slicing `df.loc[a:b]` on an ascending index: keep
exactly the rows whose date lies in the closed interval. -/
def sliceT (t : PriceTable) (a b : ℤ) : PriceTable :=
  ⟨t.dates.filter (fun d => decide (a ≤ d ∧ d ≤ b)),
   t.cols.map (fun c =>
     (c.1, ((t.dates.zip c.2).filter (fun p => decide (a ≤ p.1 ∧ p.1 ≤ b))).map Prod.snd))⟩

/-- Column label used by `returns_df` for one look-back window. -/
def windowLabel (name : String) (a b : ℤ) : String :=
  name ++ " Return " ++ strfdate a ++ " - " ++ strfdate b

/-- Embedding of `returns_df`: take the as-of date from the last index entry
(IndexError when the table is empty), slice the four look-back windows,
compute each window's cumulative returns under its date-stamped label, and
concatenate the four single-column tables side by side. -/
def returns_df (t : PriceTable) : Except PyError Table :=
  match t.dates.getLast? with
  | none => Except.error PyError.indexError
  | some e => do
    let c7 ← compute_cumulative_returns (sliceT t (e - 7) e) (windowLabel "7-day" (e - 7) e)
    let c30 ← compute_cumulative_returns (sliceT t (e - 30) e) (windowLabel "1-month" (e - 30) e)
    let c90 ← compute_cumulative_returns (sliceT t (e - 90) e) (windowLabel "3-month" (e - 90) e)
    let c180 ← compute_cumulative_returns (sliceT t (e - 180) e) (windowLabel "6-month" (e - 180) e)
    Except.ok ⟨c7.assets, c7.cols ++ c30.cols ++ c90.cols ++ c180.cols⟩

/-- Model of two successive calls on the same price table, as in the spec's
idempotence property. -/
def returns_df_twice (t : PriceTable) : Except PyError Table × Except PyError Table :=
  (returns_df t, returns_df t)

/-- Color sampled from the Spectral palette at position `i`; the palette is
opaque here, only distinctness of the sampling positions matters. -/
def spectralColor (i : ℕ) : String := "spectral" ++ toString i

/-- Python's `int(str('24') + str(i))`. -/
def natConcat (a b : ℕ) : ℕ := a * 10 ^ (toString b).length + b

def cellNum : Cell → Option ℚ
  | Cell.num q => some q
  | _ => none

/-- Sector column produced by `asset_returns.index.map(sector_mapping)`:
a dict-backed index map yields NaN for assets absent from the mapping. -/
def sectorCells (assets : List String) (m : List (String × String)) : List Cell :=
  assets.map (fun a =>
    match List.lookup a m with
    | some s => Cell.str s
    | none => Cell.nan)

/-- Column assignment `df[name] = vals`: replace the column when the name is
already present, append it at the end otherwise. -/
def setCol (t : Table) (name : String) (vals : List Cell) : Table :=
  if name ∈ t.cols.map Prod.fst
  then ⟨t.assets, t.cols.map (fun c => if c.1 = name then (name, vals) else c)⟩
  else ⟨t.assets, t.cols ++ [(name, vals)]⟩

/-- Per-bar color list `[color_mapping[i] for i in asset_returns['sector']]`:
a NaN entry of the sector column, or a sector missing from the color dict,
raises KeyError at the first offending element. -/
def buildColorList (cm : List (String × String)) : List Cell → Except PyError (List String)
  | [] => Except.ok []
  | Cell.str s :: rest =>
      match List.lookup s cm with
      | some col => (buildColorList cm rest).map (fun l => col :: l)
      | none => Except.error PyError.keyError
  | _ :: _ => Except.error PyError.keyError

structure BarChart where
  pos : ℕ
  title : String
  colors : List String
deriving DecidableEq

structure SectorChart where
  pos : ℕ
  title : String
  bars : List (String × String)
deriving DecidableEq

structure Figure where
  topCharts : List BarChart
  bottomCharts : List SectorChart
  suptitle : String
  legend : List String
  savedFile : String
deriving DecidableEq

/-- Top row of the monitor: `zip(columns, range(1, len(columns)))` pairs each
column with a subplot slot, silently truncating at the shorter list, skips
the column literally named `sector`, and places chart `i` at subplot
`int("24" + str(i))`. -/
def topRow (names : List String) (colorList : List String) : List BarChart :=
  (names.zip (List.range' 1 (names.length - 1))).filterMap
    (fun p => if p.1 = "sector" then none
              else some ⟨natConcat 24 p.2, p.1, colorList⟩)

/-- Mean return of the assets of sector `s` in one window column (pandas
group mean: NaN entries are skipped, an empty or all-NaN group is NaN). -/
def groupMeanQ (secs : List String) (vals : List Cell) (s : String) : Option ℚ :=
  let xs := (((secs.zip vals).filter (fun p => decide (p.1 = s))).map Prod.snd).filterMap cellNum
  if xs = [] then none else some (xs.sum / xs.length)

/-- Ascending value order used by `sort_values()`, which places NaN last. -/
def optLe : Option ℚ → Option ℚ → Prop
  | _, none => True
  | none, some _ => False
  | some a, some b => a ≤ b

instance : DecidableRel optLe := fun a b => by
  cases a <;> cases b <;> simp only [optLe] <;> infer_instance

/-- Row order on labelled sector averages, comparing the values only. -/
def rowLe (x y : String × Option ℚ) : Prop := optLe x.2 y.2

instance : DecidableRel rowLe := fun x y => by
  unfold rowLe; infer_instance

instance : IsTotal (String × Option ℚ) rowLe where
  total x y := by
    unfold rowLe
    cases x.2 <;> cases y.2 <;> simp only [optLe] <;> first
      | exact Or.inl trivial
      | exact Or.inr trivial
      | exact le_total _ _

instance : IsTrans (String × Option ℚ) rowLe where
  trans x y z hxy hyz := by
    unfold rowLe at *
    cases hx : x.2 <;> cases hy : y.2 <;> cases hz : z.2 <;>
      simp only [hx, hy, hz, optLe] at * <;> try exact le_trans hxy hyz

/-- Bottom-row bar colors for one window: sort the sector averages ascending
(`sort_values`, NaN placed last), take the last index label as the best
performing sector (IndexError when there is no sector at all), then color
each bar by the `True`/`False`/`Best` map: green, red, gold; the
`.loc[best, 'positive'] = 'Best'` assignment marks every row carrying the
best label. -/
def sectorBarColors (rows : List (String × Option ℚ)) : Except PyError (List (String × String)) :=
  match (List.insertionSort rowLe rows).getLast? with
  | none => Except.error PyError.indexError
  | some best =>
      Except.ok (rows.map (fun r =>
        (r.1, if r.1 = best.1 then "#D1B000"
              else if 0 < r.2.getD 0 then "g" else "r")))

/-- The index relabelling `x.replace(' ', chr(10))` applied to sector
names: replace every space character with a line break. -/
def spaceToNewline (s : String) : String :=
  String.mk (s.data.map (fun ch => if ch = ' ' then Char.ofNat 10 else ch))

/-- Python's `str.split(' ')`: split a character list at every space,
keeping empty runs, exactly like `col.split(' ')`. -/
def splitAtSpaces : List Char → List (List Char)
  | [] => [[]]
  | c :: rest =>
    let r := splitAtSpaces rest
    if c = ' ' then [] :: r
    else
      match r with
      | [] => [[c]]
      | h :: t => (c :: h) :: t

/-- Title of a bottom-row chart: `col.split(' ')` then
`f'{split[0]} Average Sector {split[1]}'`; a label with fewer than two
space-separated parts raises IndexError. -/
def bottomTitle (col : String) : Except PyError String :=
  match (splitAtSpaces col.data).map String.mk with
  | p0 :: p1 :: _ => Except.ok (p0 ++ " Average Sector " ++ p1)
  | _ => Except.error PyError.indexError

/-- Bottom row of the monitor: one chart per sector-average column, at
subplot `int("24" + str(i))` for `i` counted from 5. -/
def buildBottom (secs : List String) (displayed : List String) (uniq : List String) :
    List ((String × List Cell) × ℕ) → Except PyError (List SectorChart)
  | [] => Except.ok []
  | (c, i) :: rest => do
      let rows := displayed.zip (uniq.map (fun s => groupMeanQ secs c.2 s))
      let bars ← sectorBarColors rows
      let tl ← bottomTitle c.1
      let restCharts ← buildBottom secs displayed uniq rest
      Except.ok (⟨natConcat 24 i, tl, bars⟩ :: restCharts)

/-- Figure construction part of `hot_ball_of_money`: the per-asset color
list (which raises KeyError on an unmapped asset), the top row of per-asset
charts, the bottom row of sector-average charts, the shared legend and
title, and the fixed output file written at 300 DPI on success. -/
def renderFigure (colorMapping : List (String × String)) (secCells : List Cell)
    (secs displayed uniq : List String) (names : List String)
    (avgCols : List ((String × List Cell) × ℕ)) (legend : List String) :
    Except PyError Figure := do
  let colorList ← buildColorList colorMapping secCells
  let bottom ← buildBottom secs displayed uniq avgCols
  Except.ok ⟨topRow names colorList, bottom,
             "Hot Ball of Money Monitor", legend, "hotballofmoney.png"⟩

/-- Embedding of `hot_ball_of_money`. The result's first component is the
post-call state of the caller's table: the source assigns the `sector`
column into its argument in place before anything can fail. The second
component is the rendered figure, or the first exception raised; the
grouped sector averages feed the bottom row, and the file write happens
only when the whole construction succeeds. -/
def hot_ball_of_money (ar : Table) (m : List (String × String)) :
    Table × Except PyError Figure :=
  let sectors := (m.map Prod.snd).eraseDups
  let colorMapping := sectors.zip ((List.range sectors.length).map spectralColor)
  let secCells := sectorCells ar.assets m
  let ar2 := setCol ar "sector" secCells
  let secs := secCells.filterMap (fun c =>
    match c with
    | Cell.str s => some s
    | _ => none)
  let uniq := secs.eraseDups
  let displayed := uniq.map spaceToNewline
  let avgBase := ar2.cols.filter (fun c => decide (c.1 ≠ "sector"))
  (ar2, renderFigure colorMapping secCells secs displayed uniq (ar2.cols.map Prod.fst)
    (avgBase.zip (List.range' 5 avgBase.length)) sectors)

lemma ffillGo_map_some (l : List ℚ) : ∀ acc, ffillGo acc (l.map some) = l.map some := by
  induction l with
  | nil => intro acc; rfl
  | cons q rest ih => intro acc; simp [ffillGo, ih]

lemma zipWith_pcOne_map_some (l l' : List ℚ) :
    List.zipWith pcOne (l.map some) (l'.map some) =
      (List.zipWith (fun a b => b / a - 1) l l').map some := by
  rw [List.zipWith_map pcOne some some l l', List.map_zipWith]
  rfl

lemma cumprodGo_map_some_getLastD (l : List ℚ) :
    ∀ acc d, l ≠ [] → (cumprodGo acc (l.map some)).getLastD d = some (acc * l.prod) := by
  induction l with
  | nil => intro acc d h; exact absurd rfl h
  | cons q rest ih =>
    intro acc d _
    simp only [List.map_cons, cumprodGo, List.getLastD_cons]
    cases hr : rest with
    | nil => simp [cumprodGo]
    | cons b bs =>
      rw [← hr, ih (acc * q) (some (acc * q)) (by simp [hr]), List.prod_cons, mul_assoc]

lemma telescope_prod (ps : List ℚ) :
    ∀ p : ℚ, (∀ v ∈ p :: ps, v ≠ 0) →
      (List.zipWith (fun a b => 1 + (b / a - 1)) (p :: ps) ps).prod = (p :: ps).getLastD 0 / p := by
  induction ps with
  | nil =>
    intro p h
    simp [div_self (h p (by simp))]
  | cons q qs ih =>
    intro p h
    have hq : q ≠ 0 := h q (by simp)
    have hrest : ∀ v ∈ q :: qs, v ≠ 0 := fun v hv => h v (List.mem_cons_of_mem p hv)
    simp only [List.zipWith_cons_cons, List.prod_cons, ih q hrest, List.getLastD_cons]
    have : 1 + (q / p - 1) = q / p := by ring
    rw [this, div_mul_div_comm, mul_comm q (qs.getLastD q)]
    exact mul_div_mul_right _ _ hq

lemma seriesReturn_map_some (p : ℚ) (ps : List ℚ) (hps : ps ≠ [])
    (hnz : ∀ v ∈ p :: ps, v ≠ 0) :
    seriesReturn ((p :: ps).map some) = some (((p :: ps).getLastD 0 / p - 1) * 100) := by
  unfold seriesReturn ffill
  rw [ffillGo_map_some]
  have hpc : pctChange ((p :: ps).map some) =
      none :: (List.zipWith (fun a b => b / a - 1) (p :: ps) ps).map some := by
    cases ps with
    | nil => rfl
    | cons q qs =>
      simp only [List.map_cons, pctChange]
      rw [show (some q :: qs.map some) = (q :: qs).map some from rfl,
        ← List.map_cons some p (q :: qs), zipWith_pcOne_map_some]
  rw [hpc]
  simp only [List.map_cons, Option.map_none, Option.map_some, cumprodGo]
  rw [List.map_map, List.getLastD_cons,
    show (Option.map (fun r => 1 + r) ∘ some) = (some ∘ fun r => (1 : ℚ) + r) from rfl,
    ← List.map_map]
  rw [cumprodGo_map_some_getLastD _ 1 none
      (by cases ps with | nil => exact absurd rfl hps | cons q qs => simp),
    List.map_zipWith, telescope_prod ps p hnz]
  simp

lemma seriesReturn_singleton (v : Option ℚ) : seriesReturn [v] = none := by
  cases v <;> rfl

/-- C2: `compute_cumulative_returns` forward-fills, compounds the
period-over-period changes, and reports the final cumulative value minus one
times one hundred, which for a gap-free series of at least two nonzero
prices is the total compounded percentage return (last over first, minus
one, times one hundred); prices [100, 110] give 10 percent, and
[100, NaN, 121] forward-fills the gap and gives 21 percent. -/
theorem compute_cumulative_returns_compounds (p : ℚ) (ps : List ℚ) (ds : List ℤ) (nm : String)
    (hps : ps ≠ []) (hnz : ∀ v ∈ p :: ps, v ≠ 0) (hds : ds ≠ []) :
    compute_cumulative_returns ⟨ds, [("A", (p :: ps).map some)]⟩ nm
        = Except.ok ⟨["A"], [(nm, [Cell.num (((p :: ps).getLastD 0 / p - 1) * 100)])]⟩
    ∧ seriesReturn [some 100, some 110] = some 10
    ∧ seriesReturn [some 100, none, some 121] = some 21 := by
  refine ⟨?_,
    by norm_num [seriesReturn, ffill, ffillGo, pctChange, pcOne, cumprodGo],
    by norm_num [seriesReturn, ffill, ffillGo, pctChange, pcOne, cumprodGo]⟩
  simp only [compute_cumulative_returns, if_neg hds, List.map_cons, List.map_nil]
  rw [show (some p :: List.map some ps : List (Option ℚ)) = List.map some (p :: ps) from rfl,
    seriesReturn_map_some p ps hps hnz]
  rfl

/-- Witness for C2 at the concrete two-row slice [100, 110]: the computed
column holds exactly 10 percent. -/
theorem compute_cumulative_returns_compounds_witness :
    compute_cumulative_returns ⟨[(0 : ℤ), 1], [("A", [some 100, some 110])]⟩ "7-day Return"
        = Except.ok ⟨["A"], [("7-day Return", [Cell.num 10])]⟩ := by
  have h := (compute_cumulative_returns_compounds 100 [110] [(0 : ℤ), 1] "7-day Return"
    (by simp) (by norm_num) (by simp)).1
  norm_num at h
  exact h

/-- Counterexample to C5 as stated: on the empty slice the percentage-change
pipeline ends in `.iloc[-1]` on a zero-row frame, which raises IndexError
rather than returning silently. -/
theorem compute_cumulative_returns_empty_raises :
    compute_cumulative_returns ⟨[], [("A", [])]⟩ "c" = Except.error PyError.indexError := rfl

/-- C5 (amended): for every price slice with exactly one row the computation
does not raise: percentage change degenerates to NaN for every asset and the
NaN propagates silently; the empty slice instead raises IndexError. -/
theorem compute_cumulative_returns_short_slice (d : ℤ) (nm : String)
    (cols : List (String × List (Option ℚ))) (h1 : ∀ c ∈ cols, c.2.length = 1) :
    compute_cumulative_returns ⟨[d], cols⟩ nm
      = Except.ok ⟨cols.map Prod.fst, [(nm, cols.map (fun _ => Cell.nan))]⟩ := by
  simp only [compute_cumulative_returns, if_neg (by simp : ([d] : List ℤ) ≠ [])]
  have : cols.map (fun c => cellOfOpt (seriesReturn c.2)) = cols.map (fun _ => Cell.nan) := by
    refine List.map_congr_left (fun c hc => ?_)
    obtain ⟨v, hv⟩ := List.length_eq_one.mp (h1 c hc)
    rw [hv, seriesReturn_singleton]
    rfl
  rw [this]

/-- Witness for C5 (amended) at a one-row, one-asset slice. -/
theorem compute_cumulative_returns_short_slice_witness :
    compute_cumulative_returns ⟨[(0 : ℤ)], [("A", [some 100])]⟩ "c"
      = Except.ok ⟨["A"], [("c", [Cell.nan])]⟩ := by
  have h := compute_cumulative_returns_short_slice 0 "c" [("A", [some 100])] (by decide)
  simpa using h

lemma mem_of_getLastQ {α : Type} {l : List α} {e : α} (h : l.getLast? = some e) : e ∈ l := by
  obtain ⟨hne, rfl⟩ := List.mem_getLast?_eq_getLast (Option.mem_def.2 h)
  exact List.getLast_mem hne

lemma sliceT_cols_fst (t : PriceTable) (a b : ℤ) :
    (sliceT t a b).cols.map Prod.fst = t.cols.map Prod.fst := by
  simp [sliceT]

lemma sliceT_dates_ne_nil (t : PriceTable) (e k : ℤ) (hk : 0 ≤ k) (he : e ∈ t.dates) :
    (sliceT t (e - k) e).dates ≠ [] := by
  refine List.ne_nil_of_mem (l := (sliceT t (e - k) e).dates) (List.mem_filter.2 ⟨he, ?_⟩)
  simp [sub_le_self e hk]

lemma compute_cumulative_returns_ok (t' : PriceTable) (nm : String) (h : t'.dates ≠ []) :
    compute_cumulative_returns t' nm =
      Except.ok ⟨t'.cols.map Prod.fst,
        [(nm, t'.cols.map (fun c => cellOfOpt (seriesReturn c.2)))]⟩ := by
  simp [compute_cumulative_returns, h]

lemma returns_df_eq (t : PriceTable) (e : ℤ) (h : t.dates.getLast? = some e) :
    returns_df t = Except.ok
      ⟨t.cols.map Prod.fst,
       [(windowLabel "7-day" (e - 7) e,
         (sliceT t (e - 7) e).cols.map (fun c => cellOfOpt (seriesReturn c.2))),
        (windowLabel "1-month" (e - 30) e,
         (sliceT t (e - 30) e).cols.map (fun c => cellOfOpt (seriesReturn c.2))),
        (windowLabel "3-month" (e - 90) e,
         (sliceT t (e - 90) e).cols.map (fun c => cellOfOpt (seriesReturn c.2))),
        (windowLabel "6-month" (e - 180) e,
         (sliceT t (e - 180) e).cols.map (fun c => cellOfOpt (seriesReturn c.2)))]⟩ := by
  have he := mem_of_getLastQ h
  have h7 := sliceT_dates_ne_nil t e 7 (by norm_num) he
  have h30 := sliceT_dates_ne_nil t e 30 (by norm_num) he
  have h90 := sliceT_dates_ne_nil t e 90 (by norm_num) he
  have h180 := sliceT_dates_ne_nil t e 180 (by norm_num) he
  rw [returns_df, h]
  dsimp only
  rw [compute_cumulative_returns_ok _ _ h7, compute_cumulative_returns_ok _ _ h30,
    compute_cumulative_returns_ok _ _ h90, compute_cumulative_returns_ok _ _ h180]
  show Except.ok _ = Except.ok _
  simp [sliceT_cols_fst]

/-- C6: every window column of `returns_df` is labelled
`<window-name> Return <start> - <end>` with the start date the as-of date
minus 7, 30, 90 or 180 calendar days and the end date the as-of date, both
formatted `YYYY-MM-DD`; for the as-of date 2024-03-01 (day 19783 of the
epoch) the 7-day label is literally
`7-day Return 2024-02-23 - 2024-03-01`. -/
theorem returns_df_window_labels (t : PriceTable) (e : ℤ) (h : t.dates.getLast? = some e) :
    (∃ r, returns_df t = Except.ok r ∧
      r.cols.map Prod.fst =
        [windowLabel "7-day" (e - 7) e, windowLabel "1-month" (e - 30) e,
         windowLabel "3-month" (e - 90) e, windowLabel "6-month" (e - 180) e])
    ∧ strfdate 19783 = "2024-03-01"
    ∧ windowLabel "7-day" (19783 - 7) 19783
        = "7-day Return " ++ "2024-02-23" ++ " - " ++ "2024-03-01" := by
  exact ⟨⟨_, returns_df_eq t e h, by simp⟩, rfl, rfl⟩

/-- Witness for C6 at a three-row price table ending on day 19783
(2024-03-01). -/
theorem returns_df_window_labels_witness :
    (∃ r, returns_df ⟨[(19776 : ℤ), 19780, 19783], [("X", [some 100, none, some 121])]⟩
        = Except.ok r ∧
      r.cols.map Prod.fst =
        [windowLabel "7-day" ((19783 : ℤ) - 7) 19783,
         windowLabel "1-month" ((19783 : ℤ) - 30) 19783,
         windowLabel "3-month" ((19783 : ℤ) - 90) 19783,
         windowLabel "6-month" ((19783 : ℤ) - 180) 19783])
    ∧ strfdate 19783 = "2024-03-01"
    ∧ windowLabel "7-day" (19783 - 7) 19783
        = "7-day Return " ++ "2024-02-23" ++ " - " ++ "2024-03-01" :=
  returns_df_window_labels ⟨[(19776 : ℤ), 19780, 19783], [("X", [some 100, none, some 121])]⟩
    19783 rfl

/-- C7: on any price table with at least one row, `returns_df` succeeds and
its result has exactly 4 columns, one per look-back window. -/
theorem returns_df_four_columns (t : PriceTable) (h : t.dates ≠ []) :
    ∃ r, returns_df t = Except.ok r ∧ r.cols.length = 4 := by
  cases hl : t.dates.getLast? with
  | none => exact absurd (List.getLast?_eq_none_iff.1 hl) h
  | some e => exact ⟨_, returns_df_eq t e hl, by simp⟩

/-- Witness for C7 at a one-row, two-asset price table. -/
theorem returns_df_four_columns_witness :
    ∃ r, returns_df ⟨[(0 : ℤ)], [("X", [some 1]), ("Y", [none])]⟩ = Except.ok r
      ∧ r.cols.length = 4 :=
  returns_df_four_columns ⟨[(0 : ℤ)], [("X", [some 1]), ("Y", [none])]⟩ (by simp)

/-- C9: `returns_df` is a pure function of its input table: it threads no
hidden state and mutates nothing (every pandas operation it performs
returns a fresh object), so two calls on an identical price table, as
modelled by `returns_df_twice`, produce identical numeric output. -/
theorem returns_df_deterministic (t₁ t₂ : PriceTable) (h : t₁ = t₂) :
    returns_df t₁ = returns_df t₂
    ∧ returns_df_twice t₁ = (returns_df t₁, returns_df t₁)
    ∧ (returns_df_twice t₁).1 = (returns_df_twice t₁).2 := by
  subst h
  exact ⟨rfl, rfl, rfl⟩

/-- Witness for C9 at a concrete two-row price table. -/
theorem returns_df_deterministic_witness :
    returns_df ⟨[(0 : ℤ), 3], [("X", [some 2, some 3])]⟩
        = returns_df ⟨[(0 : ℤ), 3], [("X", [some 2, some 3])]⟩
    ∧ returns_df_twice ⟨[(0 : ℤ), 3], [("X", [some 2, some 3])]⟩
        = (returns_df ⟨[(0 : ℤ), 3], [("X", [some 2, some 3])]⟩,
           returns_df ⟨[(0 : ℤ), 3], [("X", [some 2, some 3])]⟩)
    ∧ (returns_df_twice ⟨[(0 : ℤ), 3], [("X", [some 2, some 3])]⟩).1
        = (returns_df_twice ⟨[(0 : ℤ), 3], [("X", [some 2, some 3])]⟩).2 :=
  returns_df_deterministic _ _ rfl

lemma renderFigure_error (colorMapping : List (String × String)) (secCells : List Cell)
    (secs displayed uniq names : List String)
    (avgCols : List ((String × List Cell) × ℕ)) (legend : List String) (er : PyError)
    (h : buildColorList colorMapping secCells = Except.error er) :
    renderFigure colorMapping secCells secs displayed uniq names avgCols legend
      = Except.error er := by
  unfold renderFigure
  rw [h]
  rfl

lemma renderFigure_ok (colorMapping : List (String × String)) (secCells : List Cell)
    (secs displayed uniq names : List String)
    (avgCols : List ((String × List Cell) × ℕ)) (legend : List String) (fig : Figure)
    (h : renderFigure colorMapping secCells secs displayed uniq names avgCols legend
      = Except.ok fig) :
    ∃ cl bt, buildColorList colorMapping secCells = Except.ok cl
      ∧ buildBottom secs displayed uniq avgCols = Except.ok bt
      ∧ fig = ⟨topRow names cl, bt, "Hot Ball of Money Monitor", legend,
               "hotballofmoney.png"⟩ := by
  unfold renderFigure at h
  cases hcl : buildColorList colorMapping secCells with
  | error er => rw [hcl] at h; exact absurd h (by simp [Bind.bind, Except.bind])
  | ok cl =>
    rw [hcl] at h
    cases hbt : buildBottom secs displayed uniq avgCols with
    | error er =>
      rw [show (Except.ok cl : Except PyError (List String)) >>= _ =
          buildBottom secs displayed uniq avgCols >>= _ from rfl, hbt] at h
      exact absurd h (by simp [Bind.bind, Except.bind])
    | ok bt =>
      refine ⟨cl, bt, rfl, rfl, ?_⟩
      rw [show (Except.ok cl : Except PyError (List String)) >>= _ =
          buildBottom secs displayed uniq avgCols >>= _ from rfl, hbt] at h
      simpa [Bind.bind, Except.bind] using h.symm

lemma buildColorList_missing (cm : List (String × String)) (assets : List String)
    (m : List (String × String)) (h : ∃ a ∈ assets, List.lookup a m = none) :
    buildColorList cm (sectorCells assets m) = Except.error PyError.keyError := by
  induction assets with
  | nil => simp at h
  | cons a as ih =>
    obtain ⟨x, hx, hlk⟩ := h
    cases hla : List.lookup a m with
    | none => simp [sectorCells, buildColorList, hla]
    | some s =>
      have hx' : x ∈ as := by
        cases List.mem_cons.1 hx with
        | inl he => rw [he, hla] at hlk; cases hlk
        | inr h' => exact h'
      have hrec := ih ⟨x, hx', hlk⟩
      cases hsc : List.lookup s cm with
      | none => simp [sectorCells, buildColorList, hla, hsc]
      | some col =>
        simp only [sectorCells, List.map_cons, buildColorList, hla, hsc] at *
        rw [hrec]
        rfl

/-- C1: whenever some asset of the return table is absent from the sector
mapping, `hot_ball_of_money` raises KeyError (the dict-backed index map
yields NaN for the asset and the color lookup `color_mapping[nan]` fails),
so the render never succeeds and in particular never silently drops the
asset from the output. -/
theorem hot_ball_of_money_missing_asset (ar : Table) (m : List (String × String))
    (h : ∃ a ∈ ar.assets, List.lookup a m = none) :
    (hot_ball_of_money ar m).2 = Except.error PyError.keyError := by
  unfold hot_ball_of_money
  exact renderFigure_error _ _ _ _ _ _ _ _ _ (buildColorList_missing _ ar.assets m h)

/-- Witness for C1: a one-asset table rendered against an empty mapping
raises KeyError. -/
theorem hot_ball_of_money_missing_asset_witness :
    (hot_ball_of_money ⟨["X"], [("7-day c", [Cell.num 1])]⟩ []).2
      = Except.error PyError.keyError :=
  hot_ball_of_money_missing_asset ⟨["X"], [("7-day c", [Cell.num 1])]⟩ []
    ⟨"X", by simp, rfl⟩

/-- Counterexample to C4 as stated: the caller's return-table argument is
not left unchanged — after a successful render of a one-asset table the
argument has gained a `sector` column, because the source assigns
`asset_returns['sector'] = ...` into its argument in place. -/
theorem hot_ball_of_money_mutates_argument :
    (hot_ball_of_money ⟨["X"], [("c r", [Cell.num 1])]⟩ [("X", "S")]).1
        ≠ ⟨["X"], [("c r", [Cell.num 1])]⟩
    ∧ (hot_ball_of_money ⟨["X"], [("c r", [Cell.num 1])]⟩ [("X", "S")]).1
        = ⟨["X"], [("c r", [Cell.num 1]), ("sector", [Cell.str "S"])]⟩ := by
  constructor
  · intro hcontra
    have h2 : (⟨["X"], [("c r", [Cell.num 1]), ("sector", [Cell.str "S"])]⟩ : Table)
        = ⟨["X"], [("c r", [Cell.num 1])]⟩ := by
      rw [← hcontra]
      rfl
    simp at h2
  · rfl

/-- C4 (amended): besides the rendered figure, the written image file and
the process-wide current-figure state, the call has exactly one more
externally observable effect: the caller's return-table argument is mutated
in place by appending the `sector` column; its index and all its original
columns are preserved unchanged, and on success the file written is
`hotballofmoney.png`. -/
theorem hot_ball_of_money_frame (ar : Table) (m : List (String × String))
    (hs : "sector" ∉ ar.cols.map Prod.fst) :
    (hot_ball_of_money ar m).1
        = ⟨ar.assets, ar.cols ++ [("sector", sectorCells ar.assets m)]⟩
    ∧ ∀ fig, (hot_ball_of_money ar m).2 = Except.ok fig →
        fig.savedFile = "hotballofmoney.png" ∧ fig.suptitle = "Hot Ball of Money Monitor" := by
  constructor
  · show setCol ar "sector" (sectorCells ar.assets m) = _
    unfold setCol
    rw [if_neg hs]
  · intro fig hfig
    obtain ⟨cl, bt, _, _, hfigeq⟩ := renderFigure_ok _ _ _ _ _ _ _ _ _ hfig
    rw [hfigeq]
    exact ⟨rfl, rfl⟩

/-- Witness for C4 (amended) at a concrete one-asset table and mapping. -/
theorem hot_ball_of_money_frame_witness :
    (hot_ball_of_money ⟨["Y"], [("c r", [Cell.num 2])]⟩ [("Y", "T")]).1
        = ⟨["Y"], [("c r", [Cell.num 2])
            , ("sector", sectorCells ["Y"] [("Y", "T")])]⟩
    ∧ ∀ fig, (hot_ball_of_money ⟨["Y"], [("c r", [Cell.num 2])]⟩ [("Y", "T")]).2
          = Except.ok fig →
        fig.savedFile = "hotballofmoney.png" ∧ fig.suptitle = "Hot Ball of Money Monitor" :=
  hot_ball_of_money_frame ⟨["Y"], [("c r", [Cell.num 2])]⟩ [("Y", "T")] (by simp)

/-- C8: for a return table whose columns are the 4 window columns (none of
them named `sector`) plus the appended `sector` column, the top row of any
successfully rendered figure consists of exactly four bar charts at subplot
positions 241 through 244, titled by the 4 window columns in order, and the
sector column is never rendered as a chart. -/
theorem hot_ball_of_money_top_row (ar : Table) (m : List (String × String))
    (w1 w2 w3 w4 : String) (hcols : ar.cols.map Prod.fst = [w1, w2, w3, w4])
    (h1 : w1 ≠ "sector") (h2 : w2 ≠ "sector") (h3 : w3 ≠ "sector") (h4 : w4 ≠ "sector")
    (fig : Figure) (hok : (hot_ball_of_money ar m).2 = Except.ok fig) :
    fig.topCharts.map BarChart.title = [w1, w2, w3, w4]
    ∧ fig.topCharts.map BarChart.pos = [241, 242, 243, 244]
    ∧ "sector" ∉ fig.topCharts.map BarChart.title := by
  have hs : "sector" ∉ ar.cols.map Prod.fst := by
    rw [hcols]
    intro hmem
    simp only [List.mem_cons, List.not_mem_nil, or_false] at hmem
    rcases hmem with h | h | h | h
    exacts [h1 h.symm, h2 h.symm, h3 h.symm, h4 h.symm]
  obtain ⟨cl, bt, hcl, hbt, hfigeq⟩ := renderFigure_ok _ _ _ _ _ _ _ _ _ hok
  subst hfigeq
  have hnames : (setCol ar "sector" (sectorCells ar.assets m)).cols.map Prod.fst
      = [w1, w2, w3, w4, "sector"] := by
    unfold setCol
    rw [if_neg hs]
    simp [hcols]
  show (topRow ((setCol ar "sector" (sectorCells ar.assets m)).cols.map Prod.fst) cl).map
        BarChart.title = _ ∧ _ ∧ _
  rw [hnames]
  have htop : topRow [w1, w2, w3, w4, "sector"] cl
      = [⟨241, w1, cl⟩, ⟨242, w2, cl⟩, ⟨243, w3, cl⟩, ⟨244, w4, cl⟩] := by
    have hr : List.range' 1 ([w1, w2, w3, w4, "sector"].length - 1) = [1, 2, 3, 4] := rfl
    unfold topRow
    rw [hr]
    simp [h1, h2, h3, h4]
    exact ⟨rfl, rfl, rfl, rfl⟩
  rw [htop]
  refine ⟨rfl, rfl, ?_⟩
  intro hmem
  simp only [List.map_cons, List.map_nil, List.mem_cons, List.not_mem_nil, or_false] at hmem
  rcases hmem with h | h | h | h
  exacts [h1 h.symm, h2 h.symm, h3 h.symm, h4 h.symm]

/-- Witness for C8: a four-window table with one asset, rendered against a
one-sector mapping, yields exactly the four top-row charts at 241..244. -/
theorem hot_ball_of_money_top_row_witness :
    (⟨[⟨241, "a 1", ["spectral0"]⟩, ⟨242, "a 2", ["spectral0"]⟩,
        ⟨243, "a 3", ["spectral0"]⟩, ⟨244, "a 4", ["spectral0"]⟩],
       [⟨245, "a Average Sector 1", [("S", "#D1B000")]⟩,
        ⟨246, "a Average Sector 2", [("S", "#D1B000")]⟩,
        ⟨247, "a Average Sector 3", [("S", "#D1B000")]⟩,
        ⟨248, "a Average Sector 4", [("S", "#D1B000")]⟩],
       "Hot Ball of Money Monitor", ["S"], "hotballofmoney.png"⟩ : Figure).topCharts.map BarChart.title = ["a 1", "a 2", "a 3", "a 4"]
    ∧ (⟨[⟨241, "a 1", ["spectral0"]⟩, ⟨242, "a 2", ["spectral0"]⟩,
        ⟨243, "a 3", ["spectral0"]⟩, ⟨244, "a 4", ["spectral0"]⟩],
       [⟨245, "a Average Sector 1", [("S", "#D1B000")]⟩,
        ⟨246, "a Average Sector 2", [("S", "#D1B000")]⟩,
        ⟨247, "a Average Sector 3", [("S", "#D1B000")]⟩,
        ⟨248, "a Average Sector 4", [("S", "#D1B000")]⟩],
       "Hot Ball of Money Monitor", ["S"], "hotballofmoney.png"⟩ : Figure).topCharts.map BarChart.pos = [241, 242, 243, 244]
    ∧ "sector" ∉ (⟨[⟨241, "a 1", ["spectral0"]⟩, ⟨242, "a 2", ["spectral0"]⟩,
        ⟨243, "a 3", ["spectral0"]⟩, ⟨244, "a 4", ["spectral0"]⟩],
       [⟨245, "a Average Sector 1", [("S", "#D1B000")]⟩,
        ⟨246, "a Average Sector 2", [("S", "#D1B000")]⟩,
        ⟨247, "a Average Sector 3", [("S", "#D1B000")]⟩,
        ⟨248, "a Average Sector 4", [("S", "#D1B000")]⟩],
       "Hot Ball of Money Monitor", ["S"], "hotballofmoney.png"⟩ : Figure).topCharts.map BarChart.title :=
  hot_ball_of_money_top_row
    ⟨["X"], [("a 1", [Cell.nan]), ("a 2", [Cell.nan]), ("a 3", [Cell.nan]), ("a 4", [Cell.nan])]⟩
    [("X", "S")] "a 1" "a 2" "a 3" "a 4" rfl (by decide) (by decide) (by decide) (by decide)
    _ rfl

lemma optLe_refl (a : Option ℚ) : optLe a a := by
  cases a <;> simp [optLe]

lemma sortLast_max (rows : List (String × Option ℚ)) (h : rows ≠ []) :
    ∃ best, (List.insertionSort rowLe rows).getLast? = some best ∧ best ∈ rows
      ∧ ∀ r ∈ rows, optLe r.2 best.2 := by
  have hperm := List.perm_insertionSort rowLe rows
  have hne : List.insertionSort rowLe rows ≠ [] := by
    intro hnil
    exact h (List.Perm.eq_nil (hnil ▸ hperm).symm)
  refine ⟨(List.insertionSort rowLe rows).getLast hne,
    List.getLast?_eq_getLast_of_ne_nil hne,
    hperm.mem_iff.1 (List.getLast_mem hne), ?_⟩
  intro r hr
  have hrL : r ∈ List.insertionSort rowLe rows := hperm.mem_iff.2 hr
  have hsorted : List.Sorted rowLe (List.insertionSort rowLe rows) :=
    List.sorted_insertionSort rowLe rows
  have hsplit := List.dropLast_append_getLast hne
  rw [← hsplit] at hrL hsorted
  rcases List.mem_append.1 hrL with hin | hin
  · exact (List.pairwise_append.1 hsorted).2.2 r hin _ (by simp)
  · have : r = (List.insertionSort rowLe rows).getLast hne := by simpa using hin
    rw [this]
    exact optLe_refl _

/-- Counterexample to C3 as stated: when a sector's average is NaN it sorts
past every defined value, so with averages A = 5 (the unique highest defined
average) and B = NaN, the gold goes to the NaN-valued sector B while A is
colored green — the sector with the highest average return is not the one
colored gold. -/
theorem sector_gold_counterexample :
    sectorBarColors [("A", some (5 : ℚ)), ("B", (none : Option ℚ))]
        = Except.ok [("A", "g"), ("B", "#D1B000")]
    ∧ (∀ r ∈ [("A", some (5 : ℚ)), ("B", (none : Option ℚ))], r.2.getD 0 ≤ 5)
    ∧ ("A", some (5 : ℚ)).2.getD 0 = 5 :=
  ⟨rfl, by decide, rfl⟩

/-- C3 (amended): for a window in which every sector's average return is
defined (non-NaN) and sector labels are distinct, the renderer colors
exactly one sector gold, namely the best performer — the sector sorting
last in ascending order by value, whose average is maximal — and every
other sector green if its average is positive, red otherwise; with averages
A = 5, B = -2, C = 5 the tied maximum resolves to exactly one of A and C
(here C) gold, the other tied sector green, and B red. -/
theorem sector_bar_colors_gold_best (rows : List (String × Option ℚ))
    (hne : rows ≠ []) (hnd : (rows.map Prod.fst).Nodup)
    (hdef : ∀ r ∈ rows, r.2 ≠ none) :
    (∃ best, best ∈ rows
      ∧ (∀ r ∈ rows, r.2.getD 0 ≤ best.2.getD 0)
      ∧ (∀ r ∈ rows, r.1 = best.1 → r = best)
      ∧ sectorBarColors rows = Except.ok (rows.map (fun r =>
          (r.1, if r.1 = best.1 then "#D1B000"
                else if 0 < r.2.getD 0 then "g" else "r"))))
    ∧ sectorBarColors [("A", some (5 : ℚ)), ("B", some (-2 : ℚ)), ("C", some (5 : ℚ))]
        = Except.ok [("A", "g"), ("B", "r"), ("C", "#D1B000")] := by
  refine ⟨?_, rfl⟩
  obtain ⟨best, hlast, hmem, hmax⟩ := sortLast_max rows hne
  refine ⟨best, hmem, ?_, ?_, by simp only [sectorBarColors, hlast]⟩
  · intro r hr
    have hle := hmax r hr
    cases hrv : r.2 with
    | none => exact absurd hrv (hdef r hr)
    | some a =>
      cases hbv : best.2 with
      | none => exact absurd hbv (hdef best hmem)
      | some b =>
        rw [hrv, hbv] at hle
        simpa [optLe] using hle
  · intro r hr heq
    exact List.inj_on_of_nodup_map hnd hr hmem heq

/-- Witness for C3 (amended) at the averages A = 5, B = -2, C = 5. -/
theorem sector_bar_colors_gold_best_witness :
    (∃ best, best ∈ [("A", some (5 : ℚ)), ("B", some (-2 : ℚ)), ("C", some (5 : ℚ))]
      ∧ (∀ r ∈ [("A", some (5 : ℚ)), ("B", some (-2 : ℚ)), ("C", some (5 : ℚ))],
          r.2.getD 0 ≤ best.2.getD 0)
      ∧ (∀ r ∈ [("A", some (5 : ℚ)), ("B", some (-2 : ℚ)), ("C", some (5 : ℚ))],
          r.1 = best.1 → r = best)
      ∧ sectorBarColors [("A", some (5 : ℚ)), ("B", some (-2 : ℚ)), ("C", some (5 : ℚ))]
          = Except.ok ([("A", some (5 : ℚ)), ("B", some (-2 : ℚ)), ("C", some (5 : ℚ))].map
              (fun r => (r.1, if r.1 = best.1 then "#D1B000"
                              else if 0 < r.2.getD 0 then "g" else "r"))))
    ∧ sectorBarColors [("A", some (5 : ℚ)), ("B", some (-2 : ℚ)), ("C", some (5 : ℚ))]
        = Except.ok [("A", "g"), ("B", "r"), ("C", "#D1B000")] :=
  sector_bar_colors_gold_best [("A", some (5 : ℚ)), ("B", some (-2 : ℚ)), ("C", some (5 : ℚ))]
    (by decide) (by decide) (by decide)

/-- C10: whenever at least one sector's average return is NaN in a window,
the best-sector selection — ascending `sort_values` with NaN placed last,
then the last index label — picks a NaN-valued sector, so the gold bar goes
to a NaN-valued sector rather than the sector with the highest defined
average return. -/
theorem sector_gold_goes_to_nan (rows : List (String × Option ℚ)) (hne : rows ≠ [])
    (hnan : ∃ r ∈ rows, r.2 = none) :
    ∃ best, best ∈ rows ∧ best.2 = none
      ∧ sectorBarColors rows = Except.ok (rows.map (fun r =>
          (r.1, if r.1 = best.1 then "#D1B000"
                else if 0 < r.2.getD 0 then "g" else "r"))) := by
  obtain ⟨best, hlast, hmem, hmax⟩ := sortLast_max rows hne
  obtain ⟨r0, hr0, hr0n⟩ := hnan
  have hle := hmax r0 hr0
  rw [hr0n] at hle
  have hbn : best.2 = none := by
    cases hb : best.2 with
    | none => rfl
    | some b => rw [hb] at hle; exact absurd hle (by simp [optLe])
  exact ⟨best, hmem, hbn, by simp only [sectorBarColors, hlast]⟩

/-- Witness for C10 with sector averages S = 5 and T = NaN: the gold bar
goes to the NaN-valued sector T. -/
theorem sector_gold_goes_to_nan_witness :
    ∃ best, best ∈ [("S", some (5 : ℚ)), ("T", (none : Option ℚ))] ∧ best.2 = none
      ∧ sectorBarColors [("S", some (5 : ℚ)), ("T", (none : Option ℚ))]
          = Except.ok ([("S", some (5 : ℚ)), ("T", (none : Option ℚ))].map (fun r =>
              (r.1, if r.1 = best.1 then "#D1B000"
                    else if 0 < r.2.getD 0 then "g" else "r"))) :=
  sector_gold_goes_to_nan [("S", some (5 : ℚ)), ("T", (none : Option ℚ))]
    (by decide) ⟨("T", (none : Option ℚ)), by decide, rfl⟩
